import Mathlib

/-!
Verification of the nesting/packing core of the shapeforge-dxf repository.

The TypeScript sources are shallowly embedded: JavaScript numbers are
modelled as exact rationals (the spec treats coordinates as real-valued
centimetres), fallible branches become `Option`, and the two JavaScript
library calls that are not part of the repository are abstracted:

* `Math.cos`/`Math.sin` used to sample a circle outline with 16 points
  (`collisionDetection.ts`, `getShapePoints`) return engine-computed
  double-precision values, i.e. rationals; they are threaded through as an
  arbitrary parameter `trig : Nat → ℚ × ℚ` and every theorem is proved for
  all values of that parameter.
* the `maxrects-packer` npm library used by `shapeArrangement.ts` and
  `optimizedNesting.ts` is a deterministic pure function from the rectangle
  list and the packer options to a placement; it is abstracted as a
  `PackOracle` parameter returning, for (some of) the handed rectangles,
  an index into the handed list together with a position and a rotation
  flag (the library returns the very rectangle objects it was given,
  mutated with `x`, `y`, `rot`).  Every theorem about `arrangeShapes` /
  `optimizeNesting` is proved for all oracles.
-/

/-- A 2D point, `collisionDetection.ts` interface `Point`. -/
structure Point where
  x : ℚ
  y : ℚ
deriving DecidableEq

/-- Axis-aligned bounding box, `collisionDetection.ts` interface `BoundingBox`. -/
structure BoundingBox where
  minX : ℚ
  minY : ℚ
  maxX : ℚ
  maxY : ℚ
deriving DecidableEq

/-- The four L-shape corner variants `l-shape-{tl,tr,bl,br}` of `types/shapes.ts`. -/
inductive Corner where
  | tl | tr | bl | br
deriving DecidableEq

/-- The tagged shape union of `types/shapes.ts`, restricted to the variants the
nesting core consumes (the drawing-only `line`/`arc` variants are outside the
packing core, spec §3).  Coordinates and dimensions are centimetres. -/
inductive Shape where
  | rectangle (id : String) (x y width height : ℚ)
  | lshape (corner : Corner) (id : String) (x y width height legWidth legHeight : ℚ)
  | triangle (id : String) (x y base height : ℚ)
  | circle (id : String) (x y radius : ℚ)
  | slab (id : String) (x y width height : ℚ)
deriving DecidableEq

namespace Shape

/-- Identifier of a shape. -/
def ident : Shape → String
  | .rectangle i _ _ _ _ => i
  | .lshape _ i _ _ _ _ _ _ => i
  | .triangle i _ _ _ _ => i
  | .circle i _ _ _ => i
  | .slab i _ _ _ _ => i

/-- The `x` field. -/
def px : Shape → ℚ
  | .rectangle _ x _ _ _ => x
  | .lshape _ _ x _ _ _ _ _ => x
  | .triangle _ x _ _ _ => x
  | .circle _ x _ _ => x
  | .slab _ x _ _ _ => x

/-- The `y` field. -/
def py : Shape → ℚ
  | .rectangle _ _ y _ _ => y
  | .lshape _ _ _ y _ _ _ _ => y
  | .triangle _ _ y _ _ => y
  | .circle _ _ y _ => y
  | .slab _ _ y _ _ => y

/-- Object-spread update of the position only (`{ ...shape, x, y }`). -/
def setPos : Shape → ℚ → ℚ → Shape
  | .rectangle i _ _ w h, x, y => .rectangle i x y w h
  | .lshape c i _ _ w h lw lh, x, y => .lshape c i x y w h lw lh
  | .triangle i _ _ b h, x, y => .triangle i x y b h
  | .circle i _ _ r, x, y => .circle i x y r
  | .slab i _ _ w h, x, y => .slab i x y w h

end Shape

/-- `collisionDetection.ts` `getShapeBoundingBox`. -/
def getShapeBoundingBox : Shape → BoundingBox
  | .rectangle _ x y w h => ⟨x, y, x + w, y + h⟩
  | .lshape _ _ x y w h _ _ => ⟨x, y, x + w, y + h⟩
  | .triangle _ x y b h => ⟨x, y, x + b, y + h⟩
  | .circle _ x y r => ⟨x, y, x + r * 2, y + r * 2⟩
  | .slab _ x y w h => ⟨x, y, x + w, y + h⟩

/-- `collisionDetection.ts` `getShapePoints`: the outline vertex list used for
the precise collision tests.  `trig i` stands for the double-precision pair
`(Math.cos a, Math.sin a)` at `a = (i / 16) * 2π` computed by the JS engine
when sampling a circle with 16 points; all theorems hold for every `trig`. -/
def getShapePoints (trig : Nat → ℚ × ℚ) : Shape → List Point
  | .rectangle _ x y w h =>
      [⟨x, y⟩, ⟨x + w, y⟩, ⟨x + w, y + h⟩, ⟨x, y + h⟩]
  | .lshape .tl _ x y w h lw lh =>
      [⟨x, y⟩, ⟨x + w, y⟩, ⟨x + w, y + lh⟩, ⟨x + lw, y + lh⟩, ⟨x + lw, y + h⟩, ⟨x, y + h⟩]
  | .lshape .tr _ x y w h lw lh =>
      [⟨x, y⟩, ⟨x + w, y⟩, ⟨x + w, y + h⟩, ⟨x + w - lw, y + h⟩, ⟨x + w - lw, y + lh⟩, ⟨x, y + lh⟩]
  | .lshape .bl _ x y w h lw lh =>
      [⟨x, y⟩, ⟨x + lw, y⟩, ⟨x + lw, y + h - lh⟩, ⟨x + w, y + h - lh⟩, ⟨x + w, y + h⟩, ⟨x, y + h⟩]
  | .lshape .br _ x y w h lw lh =>
      [⟨x, y⟩, ⟨x + w, y⟩, ⟨x + w, y + h⟩, ⟨x + w - lw, y + h⟩, ⟨x + w - lw, y + h - lh⟩,
       ⟨x, y + h - lh⟩]
  | .triangle _ x y b h =>
      [⟨x + b / 2, y⟩, ⟨x + b, y + h⟩, ⟨x, y + h⟩]
  | .circle _ x y r =>
      (List.range 16).map fun i => ⟨x + r + (trig i).1 * r, y + r + (trig i).2 * r⟩
  | .slab _ _ _ _ _ => []

/-- One iteration of the `pointInPolygon` ray-casting loop, with `a` the
current vertex (`polygon[i]`) and `b` the previous one (`polygon[j]`): the
tested edge crosses the horizontal ray iff the strict comparisons differ, and
then the crossing abscissa is compared to the point.  The JS `&&`
short-circuits, so the division is only reached when `b.y - a.y ≠ 0` (proved
below); rational division by zero is junk-valued, matching that dead branch. -/
def raySide (p a b : Point) : Bool :=
  (decide (a.y > p.y) != decide (b.y > p.y)) &&
    decide (p.x < (b.x - a.x) * (p.y - a.y) / (b.y - a.y) + a.x)

/-- `collisionDetection.ts` `pointInPolygon`: ray casting over the edge pairs
`(polygon[i], polygon[j])` with `j` the predecessor index starting at the last
vertex, toggling `inside` at each crossing. -/
def pointInPolygon (p : Point) (polygon : List Point) : Bool :=
  (List.zip polygon (polygon.rotate (polygon.length - 1))).foldl
    (fun inside ab => if raySide p ab.1 ab.2 then !inside else inside) false

/-- Square-root comparison in exact arithmetic: `Real.sqrt s < t` for `0 ≤ s`
is equivalent to `0 < t ∧ s < t ^ 2`; used to embed
`Math.sqrt(dx*dx + dy*dy) < t`. -/
def sqrtLt (s t : ℚ) : Bool :=
  decide (0 < t) && decide (s < t ^ 2)

/-- `collisionDetection.ts` `circlesCollide`: exact circle-circle test on the
centre distance.  Arguments are the raw fields of the two circle shapes. -/
def circlesCollide (x1 y1 r1 x2 y2 r2 buffer : ℚ) : Bool :=
  sqrtLt ((x2 + r2 - (x1 + r1)) ^ 2 + (y2 + r2 - (y1 + r1)) ^ 2) (r1 + r2 + buffer)

/-- `collisionDetection.ts` `getShapeEdges`: consecutive vertex pairs, wrapping
around. -/
def getShapeEdges (points : List Point) : List (Point × Point) :=
  List.zip points (points.rotate 1)

/-- The orientation test `ccw` local to `edgesIntersect`. -/
def ccw (a b c : Point) : Bool :=
  decide ((c.y - a.y) * (b.x - a.x) > (b.y - a.y) * (c.x - a.x))

/-- `collisionDetection.ts` `edgesIntersect`: strict segment intersection via
orientation tests. -/
def edgesIntersect (a1 a2 b1 b2 : Point) : Bool :=
  (ccw a1 b1 b2 != ccw a2 b1 b2) && (ccw a1 a2 b1 != ccw a1 a2 b2)

/-- True iff both shapes are circles (the special-case guard in
`shapesCollide`). -/
def bothCircles : Shape → Shape → Bool
  | .circle _ _ _ _, .circle _ _ _ _ => true
  | _, _ => false

/-- The buffer-expanded bounding-box rejection of `shapesCollide` (172-191):
true iff the boxes, each grown by `buffer` on all sides, do not overlap. -/
def bboxReject (s1 s2 : Shape) (buffer : ℚ) : Bool :=
  decide ((getShapeBoundingBox s1).maxX + buffer < (getShapeBoundingBox s2).minX - buffer) ||
    decide ((getShapeBoundingBox s2).maxX + buffer < (getShapeBoundingBox s1).minX - buffer) ||
    decide ((getShapeBoundingBox s1).maxY + buffer < (getShapeBoundingBox s2).minY - buffer) ||
    decide ((getShapeBoundingBox s2).maxY + buffer < (getShapeBoundingBox s1).minY - buffer)

/-- The precise phase of `shapesCollide` (193-224): a vertex of either shape
strictly inside the other outline, or any two outline edges crossing. -/
def polyCollide (trig : Nat → ℚ × ℚ) (s1 s2 : Shape) : Bool :=
  (getShapePoints trig s1).any (fun p => pointInPolygon p (getShapePoints trig s2)) ||
    (getShapePoints trig s2).any (fun p => pointInPolygon p (getShapePoints trig s1)) ||
    (getShapeEdges (getShapePoints trig s1)).any (fun e1 =>
      (getShapeEdges (getShapePoints trig s2)).any (fun e2 =>
        edgesIntersect e1.1 e1.2 e2.1 e2.2))

/-- The non-circle branch of `shapesCollide`: bounding-box rejection, then the
precise polygon phase. -/
def generalCollide (trig : Nat → ℚ × ℚ) (s1 s2 : Shape) (buffer : ℚ) : Bool :=
  if bboxReject s1 s2 buffer then false
  else polyCollide trig s1 s2

/-- `collisionDetection.ts` `shapesCollide`: circle special case, then
buffer-expanded bounding-box rejection, then vertex-in-polygon both ways, then
pairwise edge intersection. -/
def shapesCollide (trig : Nat → ℚ × ℚ) (shape1 shape2 : Shape) (buffer : ℚ) : Bool :=
  match shape1, shape2 with
  | .circle _ x1 y1 r1, .circle _ x2 y2 r2 => circlesCollide x1 y1 r1 x2 y2 r2 buffer
  | s1, s2 => generalCollide trig s1 s2 buffer

/-- Slab width with the `slab.type === "slab" ? slab.width : 80` fallback. -/
def slabWidthOf : Shape → ℚ
  | .slab _ _ _ w _ => w
  | _ => 80

/-- Slab height with the fallback `60`. -/
def slabHeightOf : Shape → ℚ
  | .slab _ _ _ _ h => h
  | _ => 60

/-- `collisionDetection.ts` `shapeWithinBounds`. -/
def shapeWithinBounds (shape slab : Shape) (margin : ℚ) : Bool :=
  let b := getShapeBoundingBox shape
  decide (b.minX ≥ margin) && decide (b.minY ≥ margin) &&
    decide (b.maxX ≤ slabWidthOf slab - margin) &&
    decide (b.maxY ≤ slabHeightOf slab - margin)

/-- The double loop `i < j` of `isValidArrangement` checking
`shapesCollide(shapes[i], shapes[j], spacing / 2)` on every later partner. -/
def noPairCollides (trig : Nat → ℚ × ℚ) (spacing : ℚ) : List Shape → Bool
  | [] => true
  | s :: rest =>
      rest.all (fun t => !shapesCollide trig s t (spacing / 2)) &&
        noPairCollides trig spacing rest

/-- `collisionDetection.ts` `isValidArrangement`: every shape within a 1 cm
margin of the slab and no pair colliding at buffer `spacing / 2`. -/
def isValidArrangement (trig : Nat → ℚ × ℚ) (shapes : List Shape) (slab : Shape)
    (spacing : ℚ) : Bool :=
  shapes.all (fun s => shapeWithinBounds s slab 1) && noPairCollides trig spacing shapes

/-- Rounding of JavaScript `Math.round`: half-up toward positive infinity. -/
def jsRound (q : ℚ) : ℤ :=
  ⌊q + 1 / 2⌋

/-- Insertion of `a` into an already-processed list, placing `a` before the
first element that must come strictly after it (`c a b < 0`): ties keep the
earlier element first, giving the stable order guaranteed by ES2019
`Array.prototype.sort`. -/
def insertCmp (c : Shape → Shape → ℚ) (a : Shape) : List Shape → List Shape
  | [] => [a]
  | b :: l => if c a b < 0 then a :: b :: l else b :: insertCmp c a l

/-- Stable comparator sort modelling `[...shapes].sort(cmp)` (stable per
ES2019): elements are inserted left to right, each after all earlier ties. -/
def jsSort (c : Shape → Shape → ℚ) (l : List Shape) : List Shape :=
  l.foldl (fun acc a => insertCmp c a acc) []

/-- `getShapeBounds` shared by `shapeArrangement.ts` and `optimizedNesting.ts`:
the bounding-box width/height pair fed to the rectangle packer. -/
def getShapeBounds : Shape → ℚ × ℚ
  | .rectangle _ _ _ w h => (w, h)
  | .lshape _ _ _ _ w h _ _ => (w, h)
  | .triangle _ _ _ b h => (b, h)
  | .circle _ _ _ r => (r * 2, r * 2)
  | .slab _ _ _ w h => (w, h)

/-- `optimizedNesting.ts` / `shapeArrangement.ts` `canRotateShape`: only
rectangles and triangles may be rotated. -/
def canRotateShape : Shape → Bool
  | .rectangle _ _ _ _ _ => true
  | .triangle _ _ _ _ _ => true
  | _ => false

/-- `optimizedNesting.ts` / `shapeArrangement.ts` `rotateShape`: swap
width/height (rectangle) or base/height (triangle) and move to `(x, y)`;
the default case only moves the shape. -/
def rotateShape : Shape → ℚ → ℚ → Shape
  | .rectangle i _ _ w h, x, y => .rectangle i x y h w
  | .triangle i _ _ b h, x, y => .triangle i x y h b
  | s, x, y => s.setPos x y

/-- One placed rectangle as returned by the `maxrects-packer` library: the
library hands back the very `Rectangle` objects it was given (here named by
their index into the handed list) mutated with a position and a rotation
flag. -/
structure PackedRect where
  index : Nat
  x : ℚ
  y : ℚ
  rot : Bool

/-- The `maxrects-packer` library abstracted as a deterministic pure function:
arguments are the handed rectangle dimensions, the `allowRotation` option, the
bin width/height and the padding.  Every theorem below holds for every
oracle. -/
def PackOracle : Type :=
  List (ℚ × ℚ) → Bool → ℚ → ℚ → ℚ → List PackedRect

/-- Reconstruction of true shape geometry from a packed-rectangle placement,
as performed identically in `shapeArrangement.ts` (69-94) and
`optimizedNesting.ts` (183-203): look the packed rectangle's backing shape up,
then either rotate-and-place or just place, offset by the margin. -/
def reconstruct (sorted : List Shape) (packed : List PackedRect) (margin : ℚ) : List Shape :=
  packed.filterMap fun pr =>
    (sorted.get? pr.index).map fun s =>
      if pr.rot && canRotateShape s then rotateShape s (pr.x + margin) (pr.y + margin)
      else s.setPos (pr.x + margin) (pr.y + margin)

/-- The area-descending comparator of `shapeArrangement.ts` line 63. -/
def cmpAreaDesc (a b : Shape) : ℚ :=
  (getShapeBounds b).1 * (getShapeBounds b).2 - (getShapeBounds a).1 * (getShapeBounds a).2

/-- `shapeArrangement.ts` `arrangeShapes`: quick arrange through the MaxRects
packer — usable area = slab minus a 1 cm margin on each side, padding
`max(spacing, 0.5)`, rotation always allowed, shapes handed over sorted by
descending bounding-box area. -/
def arrangeShapes (oracle : PackOracle) (shapes : List Shape) (spacing : ℚ)
    (slab : Shape) : List Shape :=
  if shapes = [] then shapes
  else
    let slabWidth := slabWidthOf slab
    let slabHeight := slabHeightOf slab
    let margin : ℚ := 1
    let minSpacing := max spacing (1 / 2)
    let usableWidth := slabWidth - margin * 2
    let usableHeight := slabHeight - margin * 2
    let sorted := jsSort cmpAreaDesc shapes
    let packed := oracle (sorted.map getShapeBounds) true usableWidth usableHeight minSpacing
    reconstruct sorted packed margin

/-- Slab area with the `4800` fallback (`optimizedNesting.ts` line 69/128). -/
def slabAreaOf : Shape → ℚ
  | .slab _ _ _ w h => w * h
  | _ => 4800

/-- `optimizedNesting.ts` `calculateEfficiency`: percentage of the slab area
covered by the placed shapes' bounding boxes. -/
def calculateEfficiency (shapes : List Shape) (slab : Shape) : ℚ :=
  let totalShapeArea := shapes.foldl
    (fun sum s => sum + (getShapeBounds s).1 * (getShapeBounds s).2) 0
  totalShapeArea / slabAreaOf slab * 100

/-- The result record of `optimizeNesting` (`OptimizationResult`). -/
structure OptimizationResult where
  shapes : List Shape
  efficiency : ℚ
  usedArea : ℚ
  totalArea : ℚ
  iteration : Nat
deriving DecidableEq

/-- The seven sorting strategies of `optimizedNesting.ts` (74-115), as
name/comparator pairs; the comparator returns the JS comparator value. -/
def sortingStrategies : List (String × (Shape → Shape → ℚ)) :=
  [ ("area-desc", fun a b =>
      (getShapeBounds b).1 * (getShapeBounds b).2 - (getShapeBounds a).1 * (getShapeBounds a).2),
    ("area-asc", fun a b =>
      (getShapeBounds a).1 * (getShapeBounds a).2 - (getShapeBounds b).1 * (getShapeBounds b).2),
    ("width-desc", fun a b => (getShapeBounds b).1 - (getShapeBounds a).1),
    ("height-desc", fun a b => (getShapeBounds b).2 - (getShapeBounds a).2),
    ("perimeter-desc", fun a b =>
      2 * ((getShapeBounds b).1 + (getShapeBounds b).2) -
        2 * ((getShapeBounds a).1 + (getShapeBounds a).2)),
    ("aspect-ratio", fun a b =>
      max (getShapeBounds b).1 (getShapeBounds b).2 / min (getShapeBounds b).1 (getShapeBounds b).2 -
        max (getShapeBounds a).1 (getShapeBounds a).2 / min (getShapeBounds a).1 (getShapeBounds a).2),
    ("mixed-strategy", fun a b =>
      ((getShapeBounds b).1 * (getShapeBounds b).2 + ((getShapeBounds b).1 + (getShapeBounds b).2)) -
        ((getShapeBounds a).1 * (getShapeBounds a).2 + ((getShapeBounds a).1 + (getShapeBounds a).2))) ]

/-- One iteration of the `optimizeNesting` search (body of the nested loops,
lines 155-236): sort a copy of the shapes, pack, reconstruct with the 1 cm
margin, validate, and keep the candidate iff it is valid, nonempty, and places
more shapes or equally many at higher efficiency. -/
def optStep (trig : Nat → ℚ × ℚ) (oracle : PackOracle) (shapes : List Shape)
    (slab : Shape) (minSpacing usableWidth usableHeight : ℚ)
    (cmp : Shape → Shape → ℚ) (allowRotation : Bool) (iteration : Nat)
    (best : OptimizationResult) : OptimizationResult :=
  let sorted := jsSort cmp shapes
  let packed := oracle (sorted.map getShapeBounds) allowRotation usableWidth usableHeight
    minSpacing
  let arranged := reconstruct sorted packed 1
  if isValidArrangement trig arranged slab minSpacing && decide (arranged.length > 0) &&
      (decide (arranged.length > best.shapes.length) ||
        (decide (arranged.length = best.shapes.length) &&
          decide (calculateEfficiency arranged slab > best.efficiency))) then
    { shapes := arranged,
      efficiency := calculateEfficiency arranged slab,
      usedArea := arranged.foldl (fun sum s => sum + (getShapeBounds s).1 * (getShapeBounds s).2) 0,
      totalArea := slabWidthOf slab * slabHeightOf slab,
      iteration := iteration }
  else best

/-- The strategy × rotation loop of `optimizeNesting`, returning the final
best result together with the list of `(progress, bestSoFar)` pairs passed to
the `onProgress` callback, one per iteration, in order. -/
def optLoop (trig : Nat → ℚ × ℚ) (oracle : PackOracle) (shapes : List Shape)
    (slab : Shape) (minSpacing usableWidth usableHeight : ℚ) (totalIterations : Nat) :
    List ((Shape → Shape → ℚ) × Bool) → Nat → OptimizationResult →
      OptimizationResult × List (ℚ × OptimizationResult)
  | [], _, best => (best, [])
  | (cmp, allowRotation) :: rest, iteration, best =>
      let best1 := optStep trig oracle shapes slab minSpacing usableWidth usableHeight
        cmp allowRotation (iteration + 1) best
      let rec1 := optLoop trig oracle shapes slab minSpacing usableWidth usableHeight
        totalIterations rest (iteration + 1) best1
      (rec1.1, ((iteration + 1 : ℚ) / (totalIterations : ℚ) * 100, best1) :: rec1.2)

/-- `optimizedNesting.ts` `optimizeNesting`: empty input returns immediately
with an empty zero-efficiency result; otherwise the fixed cross product of the
seven sorting strategies with rotation ∈ {on, off} is searched, each iteration
reporting progress.  The second component is the exact sequence of
`onProgress` calls. -/
def optimizeNesting (trig : Nat → ℚ × ℚ) (oracle : PackOracle) (shapes : List Shape)
    (spacing : ℚ) (slab : Shape) : OptimizationResult × List (ℚ × OptimizationResult) :=
  if shapes = [] then
    ({ shapes := [], efficiency := 0, usedArea := 0, totalArea := slabAreaOf slab,
       iteration := 0 }, [])
  else
    let slabWidth := slabWidthOf slab
    let slabHeight := slabHeightOf slab
    let margin : ℚ := 1
    let minSpacing := max spacing (1 / 2)
    let usableWidth := slabWidth - margin * 2
    let usableHeight := slabHeight - margin * 2
    let combos := sortingStrategies.flatMap fun st => [(st.2, true), (st.2, false)]
    optLoop trig oracle shapes slab minSpacing usableWidth usableHeight
      (sortingStrategies.length * 2) combos 0
      { shapes := [], efficiency := 0, usedArea := 0, totalArea := slabWidth * slabHeight,
        iteration := 0 }

/-- The cursor walk of the row/shelf `arrangeShapes` (the `shapes.forEach`
loop): wrap to a new row when the shape exceeds the usable width and at least
one shape was placed, place at the cursor, advance by width plus spacing,
track the row height. -/
def arrangeRowGo (spacing maxWidth : ℚ) :
    ℚ → ℚ → ℚ → Bool → List Shape → List Shape
  | _, _, _, _, [] => []
  | currentX, currentY, maxHeightInRow, placedAny, s :: rest =>
      let bounds := getShapeBounds s
      let wrap := decide (currentX + bounds.1 > maxWidth) && placedAny
      let x := if wrap then 1 else currentX
      let y := if wrap then currentY + maxHeightInRow + spacing else currentY
      let rowH := if wrap then 0 else maxHeightInRow
      s.setPos x y ::
        arrangeRowGo spacing maxWidth (x + bounds.1 + spacing) y (max rowH bounds.2) true rest

/-- The row/shelf `arrangeShapes` contained in the repository (trailing
content of `src/components/ShapeCanvas.tsx`; it is the algorithm spec §4.3
describes, whereas `shapeArrangement.ts` delegates placement to the external
`maxrects-packer` library): walk the shapes in input order with a cursor
starting at `(1, 1)`, wrapping on `currentX + width > slabWidth - 1`. -/
def arrangeShapesRow (shapes : List Shape) (spacing : ℚ) (slab : Shape) : List Shape :=
  if shapes = [] then shapes
  else arrangeRowGo spacing (slabWidthOf slab - 1) 1 1 0 false shapes

/-- The mm-coordinate vertex list written for an L-shape by
`dxfExport.ts` (`exportToDXF`, cases `l-shape-*`): seven vertices, the first
repeated as closing point, at `(shape.x * 10 + xOffset, shape.y * 10 +
yOffset)` with all dimensions scaled by 10. -/
def exportLShapeVertices (corner : Corner) (x y w h lw lh xOff yOff : ℚ) : List Point :=
  let px := x * 10 + xOff
  let py := y * 10 + yOff
  let w10 := w * 10
  let h10 := h * 10
  let lw10 := lw * 10
  let lh10 := lh * 10
  match corner with
  | .tl => [⟨px, py⟩, ⟨px + w10, py⟩, ⟨px + w10, py + lh10⟩, ⟨px + lw10, py + lh10⟩,
            ⟨px + lw10, py + h10⟩, ⟨px, py + h10⟩, ⟨px, py⟩]
  | .tr => [⟨px, py⟩, ⟨px + w10, py⟩, ⟨px + w10, py + h10⟩, ⟨px + w10 - lw10, py + h10⟩,
            ⟨px + w10 - lw10, py + lh10⟩, ⟨px, py + lh10⟩, ⟨px, py⟩]
  | .bl => [⟨px, py⟩, ⟨px + lw10, py⟩, ⟨px + lw10, py + h10 - lh10⟩, ⟨px + w10, py + h10 - lh10⟩,
            ⟨px + w10, py + h10⟩, ⟨px, py + h10⟩, ⟨px, py⟩]
  | .br => [⟨px, py⟩, ⟨px + w10, py⟩, ⟨px + w10, py + h10 - lh10⟩, ⟨px + w10 - lw10, py + h10 - lh10⟩,
            ⟨px + w10 - lw10, py + h10⟩, ⟨px, py + h10⟩, ⟨px, py⟩]

/-- Minimum of a list of rationals, `Math.min(...)` over a nonempty spread
(the empty case never arises: at least 3 vertices). -/
def listMin : List ℚ → ℚ
  | [] => 0
  | a :: t => t.foldl min a

/-- Maximum of a list of rationals, `Math.max(...)` over a nonempty spread. -/
def listMax : List ℚ → ℚ
  | [] => 0
  | a :: t => t.foldl max a

/-- Outcome of classifying one polyline entity in `dxfImport.ts`
(`importFromDXF`, lines 21-85): either skipped, recognised as the slab, or
pushed as a shape (`rectangle`/`triangle`; the imported `id` strings come from
`Date.now()` and are left out of the model). -/
inductive ImportedEntity where
  | skipped
  | slabEntity (width height : ℚ)
  | rectangleEntity (width height x y : ℚ)
  | triangleEntity (base height x y : ℚ)
deriving DecidableEq

/-- Classification of one `LWPOLYLINE`/`POLYLINE` entity by `importFromDXF`:
convert the vertices from mm to cm, take the bounding box, detect a slab by
layer name or by the near-origin large-box heuristic (only while no slab has
been found yet), then map 5 vertices to a rectangle, 7 vertices (the L-shape
encoding) to a rectangle, and 4 to a triangle, all with one-decimal
rounding. -/
def importPolyline (vertices : List Point) (layer : String) (slabFound : Bool) :
    ImportedEntity :=
  if vertices.length < 3 then .skipped
  else
    let points := vertices.map fun v => Point.mk (v.x / 10) (v.y / 10)
    let xs := points.map Point.x
    let ys := points.map Point.y
    let minX := listMin xs
    let maxX := listMax xs
    let minY := listMin ys
    let maxY := listMax ys
    let width := maxX - minX
    let height := maxY - minY
    let isSlab := layer = "Slab" || layer = "SLAB"
    if (isSlab || (decide (|minX| < 1) && decide (|minY| < 1) &&
        decide (width > 50) && decide (height > 50))) && !slabFound then
      .slabEntity ((jsRound (width * 10) : ℚ) / 10) ((jsRound (height * 10) : ℚ) / 10)
    else if vertices.length = 5 && !isSlab then
      .rectangleEntity ((jsRound (width * 10) : ℚ) / 10) ((jsRound (height * 10) : ℚ) / 10)
        ((jsRound (minX * 10) : ℚ) / 10) ((jsRound (minY * 10) : ℚ) / 10)
    else if vertices.length = 7 && !isSlab then
      .rectangleEntity ((jsRound (width * 10) : ℚ) / 10) ((jsRound (height * 10) : ℚ) / 10)
        ((jsRound (minX * 10) : ℚ) / 10) ((jsRound (minY * 10) : ℚ) / 10)
    else if vertices.length = 4 && !isSlab then
      .triangleEntity ((jsRound (width * 10) : ℚ) / 10) ((jsRound (height * 10) : ℚ) / 10)
        ((jsRound (minX * 10) : ℚ) / 10) ((jsRound (minY * 10) : ℚ) / 10)
    else .skipped

/-! ### Basic lemmas about the collision detector -/

/-- Boolean extensionality via the coercion to propositions. -/
lemma bool_eq_of_iff {a b : Bool} (h : a = true ↔ b = true) : a = b := by
  cases a <;> cases b <;> simp_all

/-- The orientation test is invariant under cyclic permutation of its three
points (the underlying cross product is). -/
lemma ccw_cyc (a b c : Point) : ccw a b c = ccw b c a := by
  unfold ccw
  rw [decide_eq_decide]
  have key : (c.y - a.y) * (b.x - a.x) - (b.y - a.y) * (c.x - a.x)
      = (a.y - b.y) * (c.x - b.x) - (c.y - b.y) * (a.x - b.x) := by ring
  constructor <;> intro h <;> linarith

/-- Swapping the two segments does not change the intersection test. -/
lemma edgesIntersect_symm (a1 a2 b1 b2 : Point) :
    edgesIntersect a1 a2 b1 b2 = edgesIntersect b1 b2 a1 a2 := by
  unfold edgesIntersect
  have c1 : ccw b1 a1 a2 = ccw a1 a2 b1 := ccw_cyc b1 a1 a2
  have c2 : ccw b2 a1 a2 = ccw a1 a2 b2 := ccw_cyc b2 a1 a2
  have c3 : ccw b1 b2 a1 = ccw a1 b1 b2 := by rw [ccw_cyc, ccw_cyc]
  have c4 : ccw b1 b2 a2 = ccw a2 b1 b2 := by rw [ccw_cyc, ccw_cyc]
  rw [c1, c2, c3, c4, Bool.and_comm]

/-- Bounding-box rejection is symmetric in the two shapes. -/
lemma bboxReject_symm (s1 s2 : Shape) (b : ℚ) :
    bboxReject s1 s2 b = bboxReject s2 s1 b := by
  apply bool_eq_of_iff
  unfold bboxReject
  simp only [Bool.or_eq_true, decide_eq_true_eq]
  tauto

/-- Growing the buffer can only shrink the set of rejected pairs: a pair
rejected at a larger buffer is rejected at any smaller one. -/
lemma bboxReject_mono {s1 s2 : Shape} {b b' : ℚ} (hb : b ≤ b')
    (h : bboxReject s1 s2 b' = true) : bboxReject s1 s2 b = true := by
  unfold bboxReject at h ⊢
  simp only [Bool.or_eq_true, decide_eq_true_eq] at h ⊢
  rcases h with ((h | h) | h) | h
  · exact Or.inl (Or.inl (Or.inl (by linarith)))
  · exact Or.inl (Or.inl (Or.inr (by linarith)))
  · exact Or.inl (Or.inr (by linarith))
  · exact Or.inr (by linarith)

/-- Exchanging the nesting order of two boolean `any` scans. -/
lemma any_swap {α β : Type} (l1 : List α) (l2 : List β) (f : α → β → Bool) :
    (l1.any fun a => l2.any fun b => f a b) = (l2.any fun b => l1.any fun a => f a b) := by
  apply bool_eq_of_iff
  simp only [List.any_eq_true]
  tauto

/-- Exchanging the edge lists in the double edge scan, using the symmetry of
the per-pair intersection test. -/
lemma any_swap_edges (l1 l2 : List (Point × Point)) :
    (l1.any fun e1 => l2.any fun e2 => edgesIntersect e1.1 e1.2 e2.1 e2.2)
      = (l2.any fun e2 => l1.any fun e1 => edgesIntersect e2.1 e2.2 e1.1 e1.2) := by
  rw [any_swap]
  apply bool_eq_of_iff
  simp only [List.any_eq_true]
  constructor
  · rintro ⟨e2, h2, e1, h1, h⟩
    exact ⟨e2, h2, e1, h1, by rw [← edgesIntersect_symm]; exact h⟩
  · rintro ⟨e2, h2, e1, h1, h⟩
    exact ⟨e2, h2, e1, h1, by rw [edgesIntersect_symm]; exact h⟩

/-- The precise polygon phase is symmetric in the two shapes. -/
lemma polyCollide_symm (trig : Nat → ℚ × ℚ) (s1 s2 : Shape) :
    polyCollide trig s1 s2 = polyCollide trig s2 s1 := by
  unfold polyCollide
  rw [any_swap_edges]
  apply bool_eq_of_iff
  simp only [Bool.or_eq_true]
  tauto

/-- The circle-circle test is symmetric. -/
lemma circlesCollide_symm (x1 y1 r1 x2 y2 r2 b : ℚ) :
    circlesCollide x1 y1 r1 x2 y2 r2 b = circlesCollide x2 y2 r2 x1 y1 r1 b := by
  unfold circlesCollide sqrtLt
  have h1 : (x1 + r1 - (x2 + r2)) ^ 2 + (y1 + r1 - (y2 + r2)) ^ 2
      = (x2 + r2 - (x1 + r1)) ^ 2 + (y2 + r2 - (y1 + r1)) ^ 2 := by ring
  have h2 : r2 + r1 + b = r1 + r2 + b := by ring
  rw [h1, h2]

/-- The circle-circle test can only get harder to satisfy as the buffer
shrinks. -/
lemma circlesCollide_mono {x1 y1 r1 x2 y2 r2 : ℚ} {b b' : ℚ} (hb : b ≤ b')
    (h : circlesCollide x1 y1 r1 x2 y2 r2 b' = false) :
    circlesCollide x1 y1 r1 x2 y2 r2 b = false := by
  unfold circlesCollide sqrtLt at h ⊢
  by_cases hp : (0 : ℚ) < r1 + r2 + b
  · have hp' : (0 : ℚ) < r1 + r2 + b' := by linarith
    have h2 : ¬ ((x2 + r2 - (x1 + r1)) ^ 2 + (y2 + r2 - (y1 + r1)) ^ 2 < (r1 + r2 + b') ^ 2) := by
      intro hlt
      rw [decide_eq_true hp', decide_eq_true hlt] at h
      simp at h
    have h3 : ¬ ((x2 + r2 - (x1 + r1)) ^ 2 + (y2 + r2 - (y1 + r1)) ^ 2 < (r1 + r2 + b) ^ 2) := by
      intro hlt
      apply h2
      have hsq : (r1 + r2 + b) ^ 2 ≤ (r1 + r2 + b') ^ 2 := by nlinarith
      linarith
    rw [decide_eq_false h3]
    simp
  · rw [decide_eq_false hp]
    simp

/-- The non-circle branch is symmetric in the two shapes. -/
lemma generalCollide_symm (trig : Nat → ℚ × ℚ) (s1 s2 : Shape) (b : ℚ) :
    generalCollide trig s1 s2 b = generalCollide trig s2 s1 b := by
  unfold generalCollide
  rw [bboxReject_symm, polyCollide_symm]

/-- `shapesCollide` is symmetric in the two shapes. -/
lemma shapesCollide_symm (trig : Nat → ℚ × ℚ) (s1 s2 : Shape) (b : ℚ) :
    shapesCollide trig s1 s2 b = shapesCollide trig s2 s1 b := by
  cases s1 <;> cases s2 <;>
    first
      | exact circlesCollide_symm _ _ _ _ _ _ _
      | exact generalCollide_symm trig _ _ b

/-- The buffer-dependent part of the general branch is monotone: a pair
reported collision-free at a larger buffer stays collision-free at any
smaller one. -/
lemma generalCollide_mono (trig : Nat → ℚ × ℚ) {s1 s2 : Shape} {b b' : ℚ} (hb : b ≤ b')
    (h : generalCollide trig s1 s2 b' = false) :
    generalCollide trig s1 s2 b = false := by
  unfold generalCollide at h ⊢
  by_cases hr : bboxReject s1 s2 b = true
  · simp [hr]
  · have hr' : bboxReject s1 s2 b' = false := by
      by_contra hc
      rw [Bool.not_eq_false] at hc
      exact hr (bboxReject_mono hb hc)
    rw [Bool.not_eq_true] at hr
    rw [hr'] at h
    rw [hr]
    simpa using h

/-- Collision-freedom is antitone in the buffer: if two shapes do not collide
at buffer `b'` they do not collide at any smaller buffer `b`. -/
lemma shapesCollide_mono (trig : Nat → ℚ × ℚ) {s1 s2 : Shape} {b b' : ℚ} (hb : b ≤ b')
    (h : shapesCollide trig s1 s2 b' = false) : shapesCollide trig s1 s2 b = false := by
  cases s1 <;> cases s2 <;>
    first
      | exact circlesCollide_mono hb h
      | exact generalCollide_mono trig hb h

/-! ### Lemmas about arrangement validity -/

/-- Unfolding of the bounds test into the four inequalities. -/
lemma shapeWithinBounds_iff {s slab : Shape} {m : ℚ} :
    shapeWithinBounds s slab m = true ↔
      m ≤ (getShapeBoundingBox s).minX ∧ m ≤ (getShapeBoundingBox s).minY ∧
        (getShapeBoundingBox s).maxX ≤ slabWidthOf slab - m ∧
        (getShapeBoundingBox s).maxY ≤ slabHeightOf slab - m := by
  unfold shapeWithinBounds
  simp only [Bool.and_eq_true, decide_eq_true_eq, ge_iff_le]
  tauto

/-- The pairwise collision scan of `isValidArrangement` as a `Pairwise`
predicate over the list. -/
lemma noPairCollides_iff {trig : Nat → ℚ × ℚ} {sp : ℚ} {l : List Shape} :
    noPairCollides trig sp l = true ↔
      l.Pairwise (fun a b => shapesCollide trig a b (sp / 2) = false) := by
  induction l with
  | nil => simp [noPairCollides]
  | cons s rest ih =>
      simp only [noPairCollides, Bool.and_eq_true, List.all_eq_true, List.pairwise_cons, ih,
        Bool.not_eq_true']

/-- Full unfolding of `isValidArrangement` into bounds plus pairwise
collision-freedom. -/
lemma isValidArrangement_iff {trig : Nat → ℚ × ℚ} {l : List Shape} {slab : Shape} {sp : ℚ} :
    isValidArrangement trig l slab sp = true ↔
      (∀ s ∈ l, shapeWithinBounds s slab 1 = true) ∧
        l.Pairwise (fun a b => shapesCollide trig a b (sp / 2) = false) := by
  unfold isValidArrangement
  simp only [Bool.and_eq_true, List.all_eq_true, noPairCollides_iff]

/-- A valid arrangement has no colliding pair in either order, and stays
collision-free at any buffer at most the validation buffer. -/
lemma isValidArrangement_no_collide {trig : Nat → ℚ × ℚ} {l : List Shape} {slab : Shape}
    {sp b : ℚ} (hb : b ≤ sp / 2) (hv : isValidArrangement trig l slab sp = true)
    (i j : Fin l.length) (hij : i ≠ j) :
    shapesCollide trig (l.get i) (l.get j) b = false := by
  have hpw := (isValidArrangement_iff.mp hv).2
  rw [List.pairwise_iff_get] at hpw
  rcases lt_or_gt_of_ne (Fin.val_ne_of_ne hij) with h | h
  · exact shapesCollide_mono trig hb (hpw i j h)
  · rw [shapesCollide_symm]
    exact shapesCollide_mono trig hb (hpw j i h)

/-! ### Lemmas about the sort, the reconstruction and the optimizer loop -/

/-- Membership through `insertCmp`. -/
lemma insertCmp_mem {c : Shape → Shape → ℚ} {a x : Shape} {l : List Shape} :
    x ∈ insertCmp c a l ↔ x = a ∨ x ∈ l := by
  induction l with
  | nil => simp [insertCmp]
  | cons b t ih =>
      unfold insertCmp
      by_cases h : c a b < 0
      · simp [h]
      · simp [h, ih]
        tauto

/-- Sorting with a JS comparator neither adds nor invents shapes. -/
lemma jsSort_mem {c : Shape → Shape → ℚ} {x : Shape} {l : List Shape}
    (h : x ∈ jsSort c l) : x ∈ l := by
  unfold jsSort at h
  suffices key : ∀ (l : List Shape) (acc : List Shape),
      x ∈ l.foldl (fun acc a => insertCmp c a acc) acc → x ∈ acc ∨ x ∈ l by
    rcases key l [] h with h0 | h0
    · simp at h0
    · exact h0
  intro l
  induction l with
  | nil => intro acc h0; exact Or.inl h0
  | cons b t ih =>
      intro acc h0
      rcases ih (insertCmp c b acc) h0 with h1 | h1
      · rcases insertCmp_mem.mp h1 with h2 | h2
        · exact Or.inr (by simp [h2])
        · exact Or.inl h2
      · exact Or.inr (List.mem_cons_of_mem _ h1)

/-- Every reconstructed shape is a moved or rotate-moved copy of a shape in
the list that was handed to the packer. -/
lemma reconstruct_mem {sorted : List Shape} {packed : List PackedRect} {m : ℚ} {t : Shape}
    (h : t ∈ reconstruct sorted packed m) :
    ∃ s ∈ sorted, ∃ x y, t = s.setPos x y ∨ t = rotateShape s x y := by
  unfold reconstruct at h
  rw [List.mem_filterMap] at h
  rcases h with ⟨pr, _, hmap⟩
  rcases Option.map_eq_some'.mp hmap with ⟨s, hget, hval⟩
  refine ⟨s, List.get?_mem hget, pr.x + m, pr.y + m, ?_⟩
  by_cases hrot : (pr.rot && canRotateShape s) = true
  · rw [if_pos hrot] at hval
    exact Or.inr hval.symm
  · rw [if_neg hrot] at hval
    exact Or.inl hval.symm

/-- A search step only ever replaces the best result by a candidate that
passed `isValidArrangement` (at the search's `minSpacing`). -/
lemma optStep_valid {trig : Nat → ℚ × ℚ} {oracle : PackOracle} {shapes : List Shape}
    {slab : Shape} {mS uW uH : ℚ} {cmp : Shape → Shape → ℚ} {rot : Bool} {it : Nat}
    {best : OptimizationResult}
    (hbest : best.shapes = [] ∨ isValidArrangement trig best.shapes slab mS = true) :
    (optStep trig oracle shapes slab mS uW uH cmp rot it best).shapes = [] ∨
      isValidArrangement trig (optStep trig oracle shapes slab mS uW uH cmp rot it best).shapes
        slab mS = true := by
  unfold optStep
  simp only []
  split
  case isTrue h =>
    right
    rw [Bool.and_eq_true, Bool.and_eq_true] at h
    exact h.1.1
  case isFalse h => exact hbest

/-- A search step never decreases the number of placed shapes of the best
result. -/
lemma optStep_count_le {trig : Nat → ℚ × ℚ} {oracle : PackOracle} {shapes : List Shape}
    {slab : Shape} {mS uW uH : ℚ} {cmp : Shape → Shape → ℚ} {rot : Bool} {it : Nat}
    {best : OptimizationResult} :
    best.shapes.length ≤ (optStep trig oracle shapes slab mS uW uH cmp rot it best).shapes.length := by
  unfold optStep
  simp only []
  split
  case isTrue h =>
    rw [Bool.and_eq_true] at h
    have hrepl := h.2
    simp only [Bool.or_eq_true, Bool.and_eq_true, decide_eq_true_eq] at hrepl
    rcases hrepl with h1 | ⟨h1, _⟩
    · exact le_of_lt h1
    · exact le_of_eq h1.symm
  case isFalse h => exact le_refl _

/-- Every shape in the best result after a step is a moved or rotate-moved
copy of an input shape (the candidate comes from `reconstruct` over the sorted
copy of the input). -/
lemma optStep_provenance {trig : Nat → ℚ × ℚ} {oracle : PackOracle} {shapes : List Shape}
    {slab : Shape} {mS uW uH : ℚ} {cmp : Shape → Shape → ℚ} {rot : Bool} {it : Nat}
    {best : OptimizationResult}
    (hbest : ∀ t ∈ best.shapes, ∃ s ∈ shapes, ∃ x y,
      t = s.setPos x y ∨ t = rotateShape s x y) :
    ∀ t ∈ (optStep trig oracle shapes slab mS uW uH cmp rot it best).shapes,
      ∃ s ∈ shapes, ∃ x y, t = s.setPos x y ∨ t = rotateShape s x y := by
  unfold optStep
  simp only []
  split
  case isTrue h =>
    intro t ht
    rcases reconstruct_mem ht with ⟨s, hs, x, y, hxy⟩
    exact ⟨s, jsSort_mem hs, x, y, hxy⟩
  case isFalse h => exact hbest

/-- Generic preservation of a property of the best result along the search
loop, also at every reported intermediate best. -/
lemma optLoop_inv {trig : Nat → ℚ × ℚ} {oracle : PackOracle} {shapes : List Shape}
    {slab : Shape} {mS uW uH : ℚ} {tot : Nat} (P : OptimizationResult → Prop)
    (hstep : ∀ cmp rot it best, P best →
      P (optStep trig oracle shapes slab mS uW uH cmp rot it best)) :
    ∀ (combos : List ((Shape → Shape → ℚ) × Bool)) (iter : Nat) (best : OptimizationResult),
      P best →
      P (optLoop trig oracle shapes slab mS uW uH tot combos iter best).1 ∧
        ∀ t ∈ (optLoop trig oracle shapes slab mS uW uH tot combos iter best).2, P t.2 := by
  intro combos
  induction combos with
  | nil =>
      intro iter best hbest
      exact ⟨hbest, by simp [optLoop]⟩
  | cons cb rest ih =>
      intro iter best hbest
      rcases cb with ⟨cmp, rot⟩
      have h1 := hstep cmp rot (iter + 1) best hbest
      rcases ih (iter + 1) (optStep trig oracle shapes slab mS uW uH cmp rot (iter + 1) best) h1
        with ⟨hfst, htrace⟩
      constructor
      · simpa [optLoop] using hfst
      · intro t ht
        simp only [optLoop, List.mem_cons] at ht
        rcases ht with ht | ht
        · rw [ht]
          exact h1
        · exact htrace t ht

/-- The search trace has exactly one entry per strategy/rotation combination:
no early termination. -/
lemma optLoop_trace_length {trig : Nat → ℚ × ℚ} {oracle : PackOracle} {shapes : List Shape}
    {slab : Shape} {mS uW uH : ℚ} {tot : Nat} :
    ∀ (combos : List ((Shape → Shape → ℚ) × Bool)) (iter : Nat) (best : OptimizationResult),
      (optLoop trig oracle shapes slab mS uW uH tot combos iter best).2.length = combos.length := by
  intro combos
  induction combos with
  | nil => intro iter best; simp [optLoop]
  | cons cb rest ih =>
      intro iter best
      rcases cb with ⟨cmp, rot⟩
      simp [optLoop, ih]

/-- The placed-shape counts reported along the trace never decrease, and every
reported count is at least the count of the incoming best result. -/
lemma optLoop_trace_mono {trig : Nat → ℚ × ℚ} {oracle : PackOracle} {shapes : List Shape}
    {slab : Shape} {mS uW uH : ℚ} {tot : Nat} :
    ∀ (combos : List ((Shape → Shape → ℚ) × Bool)) (iter : Nat) (best : OptimizationResult),
      ((optLoop trig oracle shapes slab mS uW uH tot combos iter best).2.map
          (fun p => p.2.shapes.length)).Pairwise (· ≤ ·) ∧
        ∀ t ∈ (optLoop trig oracle shapes slab mS uW uH tot combos iter best).2,
          best.shapes.length ≤ t.2.shapes.length := by
  intro combos
  induction combos with
  | nil => intro iter best; simp [optLoop]
  | cons cb rest ih =>
      intro iter best
      rcases cb with ⟨cmp, rot⟩
      rcases ih (iter + 1) (optStep trig oracle shapes slab mS uW uH cmp rot (iter + 1) best)
        with ⟨hpw, hall⟩
      constructor
      · simp only [optLoop, List.map_cons, List.pairwise_cons]
        refine ⟨?_, hpw⟩
        intro n hn
        rcases List.mem_map.mp hn with ⟨t, ht, hteq⟩
        rw [← hteq]
        exact hall t ht
      · intro t ht
        simp only [optLoop, List.mem_cons] at ht
        rcases ht with ht | ht
        · rw [ht]
          exact optStep_count_le
        · exact le_trans optStep_count_le (hall t ht)

/-! ### Lemmas for the circle test, the row packer and the DXF codec -/

/-- The exact-arithmetic embedding of `Math.sqrt(s) < t` agrees with the
real-number comparison for every nonnegative radicand. -/
lemma sqrtLt_iff_real {s t : ℚ} :
    sqrtLt s t = true ↔ Real.sqrt (s : ℝ) < (t : ℝ) := by
  unfold sqrtLt
  simp only [Bool.and_eq_true, decide_eq_true_eq]
  constructor
  · rintro ⟨ht, hlt⟩
    have ht' : (0 : ℝ) < (t : ℝ) := by exact_mod_cast ht
    rw [Real.sqrt_lt' ht']
    exact_mod_cast hlt
  · intro h
    have ht' : (0 : ℝ) < (t : ℝ) := lt_of_le_of_lt (Real.sqrt_nonneg _) h
    refine ⟨by exact_mod_cast ht', ?_⟩
    have := (Real.sqrt_lt' ht').mp h
    exact_mod_cast this

/-- The row packer emits exactly one placed copy of each input shape, in input
order: each output shape is the corresponding input moved to the cursor. -/
lemma arrangeRowGo_forall2 (spacing maxWidth : ℚ) :
    ∀ (l : List Shape) (cx cy m : ℚ) (p : Bool),
      List.Forall₂ (fun s t => ∃ a b, t = Shape.setPos s a b) l
        (arrangeRowGo spacing maxWidth cx cy m p l) := by
  intro l
  induction l with
  | nil => intro cx cy m p; exact List.Forall₂.nil
  | cons s rest ih =>
      intro cx cy m p
      refine List.Forall₂.cons ⟨_, _, rfl⟩ (ih _ _ _ _)

/-- The row packer processes the input in order (`Forall₂` version for the
full function, empty case included). -/
lemma arrangeShapesRow_forall2 (shapes : List Shape) (spacing : ℚ) (slab : Shape) :
    List.Forall₂ (fun s t => ∃ a b, t = Shape.setPos s a b) shapes
      (arrangeShapesRow shapes spacing slab) := by
  unfold arrangeShapesRow
  split
  case isTrue h => rw [h]; exact List.Forall₂.nil
  case isFalse h => exact arrangeRowGo_forall2 _ _ _ _ _ _ _

/-- The fold implementing `Math.min(...)` is a lower bound of its arguments. -/
lemma foldl_min_le : ∀ (t : List ℚ) (acc : ℚ),
    t.foldl min acc ≤ acc ∧ ∀ b ∈ t, t.foldl min acc ≤ b := by
  intro t
  induction t with
  | nil => intro acc; exact ⟨le_refl _, by simp⟩
  | cons c t ih =>
      intro acc
      rcases ih (min acc c) with ⟨h1, h2⟩
      refine ⟨le_trans h1 (min_le_left _ _), ?_⟩
      intro b hb
      rcases List.mem_cons.mp hb with rfl | hb
      · exact le_trans h1 (min_le_right _ _)
      · exact h2 b hb

/-- Any lower bound of the accumulator and the list bounds the min fold. -/
lemma le_foldl_min {a : ℚ} : ∀ (t : List ℚ) (acc : ℚ), a ≤ acc → (∀ b ∈ t, a ≤ b) →
    a ≤ t.foldl min acc := by
  intro t
  induction t with
  | nil => intro acc h _; exact h
  | cons c t ih =>
      intro acc h hall
      exact ih _ (le_min h (hall c (by simp))) fun b hb => hall b (List.mem_cons_of_mem _ hb)

/-- `listMin` picks the least element. -/
lemma listMin_eq {l : List ℚ} {a : ℚ} (ha : a ∈ l) (hall : ∀ b ∈ l, a ≤ b) :
    listMin l = a := by
  cases l with
  | nil => simp at ha
  | cons c t =>
      unfold listMin
      apply le_antisymm
      · rcases List.mem_cons.mp ha with rfl | ha
        · exact (foldl_min_le t a).1
        · exact (foldl_min_le t c).2 a ha
      · exact le_foldl_min t c (hall c (by simp)) fun b hb => hall b (List.mem_cons_of_mem _ hb)

/-- The fold implementing `Math.max(...)` is an upper bound of its
arguments. -/
lemma le_foldl_max : ∀ (t : List ℚ) (acc : ℚ),
    acc ≤ t.foldl max acc ∧ ∀ b ∈ t, b ≤ t.foldl max acc := by
  intro t
  induction t with
  | nil => intro acc; exact ⟨le_refl _, by simp⟩
  | cons c t ih =>
      intro acc
      rcases ih (max acc c) with ⟨h1, h2⟩
      refine ⟨le_trans (le_max_left _ _) h1, ?_⟩
      intro b hb
      rcases List.mem_cons.mp hb with rfl | hb
      · exact le_trans (le_max_right _ _) h1
      · exact h2 b hb

/-- Any upper bound of the accumulator and the list bounds the max fold. -/
lemma foldl_max_le {a : ℚ} : ∀ (t : List ℚ) (acc : ℚ), acc ≤ a → (∀ b ∈ t, b ≤ a) →
    t.foldl max acc ≤ a := by
  intro t
  induction t with
  | nil => intro acc h _; exact h
  | cons c t ih =>
      intro acc h hall
      exact ih _ (max_le h (hall c (by simp))) fun b hb => hall b (List.mem_cons_of_mem _ hb)

/-- `listMax` picks the greatest element. -/
lemma listMax_eq {l : List ℚ} {a : ℚ} (ha : a ∈ l) (hall : ∀ b ∈ l, b ≤ a) :
    listMax l = a := by
  cases l with
  | nil => simp at ha
  | cons c t =>
      unfold listMax
      apply le_antisymm
      · exact foldl_max_le t c (hall c (by simp)) fun b hb => hall b (List.mem_cons_of_mem _ hb)
      · rcases List.mem_cons.mp ha with rfl | ha
        · exact (le_foldl_max t a).1
        · exact (le_foldl_max t c).2 a ha

/-- Bridge from a computed `get?` equation to a `get` equation at the same
index. -/
lemma get_eq_of_get? {α : Type} {l : List α} {n : Nat} {a : α} (h : n < l.length)
    (hq : l.get? n = some a) : l.get ⟨n, h⟩ = a := by
  rw [List.get?_eq_get h] at hq
  exact Option.some_inj.mp hq

/-- Rounding an integer-valued rational is the identity. -/
lemma jsRound_intCast (n : ℤ) : jsRound (n : ℚ) = n := by
  unfold jsRound
  rw [Int.floor_int_add]
  norm_num

/-- Ray casting on an axis-aligned rectangle outline decides membership of the
half-open box `[x, x + w) × [y, y + h)`: the left and top edges count as
inside, the right and bottom edges as outside. -/
lemma pointInPolygon_rect_iff {x y w h : ℚ} (hw : 0 < w) (hh : 0 < h) (p : Point) :
    pointInPolygon p [⟨x, y⟩, ⟨x + w, y⟩, ⟨x + w, y + h⟩, ⟨x, y + h⟩] = true ↔
      x ≤ p.x ∧ p.x < x + w ∧ y ≤ p.y ∧ p.y < y + h := by
  unfold pointInPolygon
  norm_num [List.rotate, raySide]
  by_cases hy1 : y > p.y <;> by_cases hy2 : y + h > p.y <;>
    by_cases hx1 : p.x < x <;> by_cases hx2 : p.x < x + w <;>
    simp [hy1, hy2, hx1, hx2] <;>
    first
      | (refine ⟨by linarith, by linarith, by linarith, by linarith⟩)
      | (rintro ⟨h1, h2, h3, h4⟩ <;> linarith)
      | (intro h1 h2 h3; linarith)
      | (intro h1 h2; linarith)
      | (intro h1; linarith)
      | linarith

/-- The crossing guard of the ray cast forces a nonzero denominator: when the
two strict comparisons differ the edge is not horizontal. -/
lemma raySide_denominator {p a b : Point}
    (h : (decide (a.y > p.y) != decide (b.y > p.y)) = true) : b.y - a.y ≠ 0 := by
  intro heq
  have hba : b.y = a.y := by linarith [sub_eq_zero.mp heq]
  rw [hba] at h
  simp at h

/-! ### Claim theorems -/

/-- C7: for the empty shape list, `optimizeNesting` returns immediately with
an empty placed-shape list, efficiency 0 and total area equal to the slab's
area, performing zero packing iterations and invoking `onProgress` zero times
(empty trace). -/
theorem claim_C7_empty_input (trig : Nat → ℚ × ℚ) (oracle : PackOracle) (spacing : ℚ)
    (i : String) (sx sy w h : ℚ) :
    optimizeNesting trig oracle [] spacing (.slab i sx sy w h)
      = ({ shapes := [], efficiency := 0, usedArea := 0, totalArea := w * h,
           iteration := 0 }, []) := by
  unfold optimizeNesting
  simp [slabAreaOf]

/-- C5: for two circle shapes, `shapesCollide` returns true iff the Euclidean
distance between their centres (at `(x + radius, y + radius)`) is strictly
below the sum of the radii plus the buffer; in particular two radius-5 circles
with coincident centres collide at buffer 0 and do not at centre distance
11. -/
theorem claim_C5_circle_exact (trig : Nat → ℚ × ℚ) (i1 i2 : String)
    (x1 y1 r1 x2 y2 r2 b : ℚ) :
    (shapesCollide trig (.circle i1 x1 y1 r1) (.circle i2 x2 y2 r2) b = true ↔
      Real.sqrt (((x2 : ℝ) + r2 - ((x1 : ℝ) + r1)) ^ 2 + ((y2 : ℝ) + r2 - ((y1 : ℝ) + r1)) ^ 2)
        < (r1 : ℝ) + r2 + b) ∧
    shapesCollide trig (.circle "c1" 0 0 5) (.circle "c2" 0 0 5) 0 = true ∧
    shapesCollide trig (.circle "c1" 0 0 5) (.circle "c2" 11 0 5) 0 = false := by
  refine ⟨?_, ?_, ?_⟩
  · show circlesCollide x1 y1 r1 x2 y2 r2 b = true ↔ _
    unfold circlesCollide
    rw [sqrtLt_iff_real]
    rw [show (((x2 + r2 - (x1 + r1)) ^ 2 + (y2 + r2 - (y1 + r1)) ^ 2 : ℚ) : ℝ)
        = ((x2 : ℝ) + r2 - ((x1 : ℝ) + r1)) ^ 2 + ((y2 : ℝ) + r2 - ((y1 : ℝ) + r1)) ^ 2 from by
      push_cast
      ring]
    rw [show ((r1 + r2 + b : ℚ) : ℝ) = (r1 : ℝ) + r2 + b from by push_cast; ring]
  · show circlesCollide 0 0 5 0 0 5 0 = true
    with_unfolding_all decide
  · show circlesCollide 0 0 5 11 0 5 0 = false
    with_unfolding_all decide

/-- C8: the collision and bounds checks are total boolean functions (they can
only return `true` or `false`, never fail), and the ray-casting division is
guarded: whenever the crossing test of `pointInPolygon` takes the branch that
evaluates the division, the denominator `b.y - a.y` is nonzero. -/
theorem claim_C8_totality :
    (∀ (trig : Nat → ℚ × ℚ) (s1 s2 : Shape) (b : ℚ),
        shapesCollide trig s1 s2 b = true ∨ shapesCollide trig s1 s2 b = false) ∧
    (∀ (s slab : Shape) (m : ℚ),
        shapeWithinBounds s slab m = true ∨ shapeWithinBounds s slab m = false) ∧
    (∀ (trig : Nat → ℚ × ℚ) (l : List Shape) (slab : Shape) (sp : ℚ),
        isValidArrangement trig l slab sp = true ∨ isValidArrangement trig l slab sp = false) ∧
    (∀ p a b : Point, (decide (a.y > p.y) != decide (b.y > p.y)) = true → b.y - a.y ≠ 0) := by
  refine ⟨?_, ?_, ?_, fun p a b h => raySide_denominator h⟩
  · intro trig s1 s2 b
    exact Bool.eq_false_or_eq_true _
  · intro s slab m
    exact Bool.eq_false_or_eq_true _
  · intro trig l slab sp
    exact Bool.eq_false_or_eq_true _

/-- Witness for C8 at a concrete crossing edge: the guard of the ray cast
holds for the vertical edge from `(0, 0)` to `(0, 1)` against the point
`(0, 0)`, and the denominator is indeed nonzero there. -/
theorem claim_C8_totality_witness :
    (⟨0, 1⟩ : Point).y - (⟨0, 0⟩ : Point).y ≠ 0 :=
  claim_C8_totality.2.2.2 ⟨0, 0⟩ ⟨0, 0⟩ ⟨0, 1⟩ (by with_unfolding_all decide)

/-- C9 counterexample: two axis-aligned 10×10 rectangles touching along a full
edge (`maxX` of the first equals `minX` of the second, same `y` range) are
reported as COLLIDING by `shapesCollide` at buffer 0, refuting the claim that
shared boundaries never count as collision: the shared corner vertex lies in
the half-open inside of the neighbour. -/
theorem claim_C9_counterexample :
    shapesCollide (fun _ => (1, 0)) (.rectangle "a" 0 0 10 10) (.rectangle "b" 10 0 10 10) 0
      = true := by
  with_unfolding_all decide

/-- C9 (amended): `pointInPolygon` on a rectangle outline decides membership
of the half-open box `[x, x+w) × [y, y+h)` rather than the strict interior, so
touching rectangles collide exactly when a vertex of one lies in the other's
half-open box: flush side-by-side contact (shared corners) and corner contact
are reported as collisions, while an edge contact whose touching side lies
strictly inside the other's side (no vertex in a half-open box) is reported
collision-free. -/
theorem claim_C9_amended :
    (∀ (trig : Nat → ℚ × ℚ) (i : String) (x y w h : ℚ) (p : Point), 0 < w → 0 < h →
        (pointInPolygon p (getShapePoints trig (.rectangle i x y w h)) = true ↔
          x ≤ p.x ∧ p.x < x + w ∧ y ≤ p.y ∧ p.y < y + h)) ∧
    shapesCollide (fun _ => (1, 0)) (.rectangle "a" 0 0 10 10) (.rectangle "b" 10 2 10 6) 0
      = false ∧
    shapesCollide (fun _ => (1, 0)) (.rectangle "a" 0 0 10 10) (.rectangle "b" 10 10 10 10) 0
      = true := by
  refine ⟨?_, by with_unfolding_all decide, by with_unfolding_all decide⟩
  intro trig i x y w h p hw hh
  exact pointInPolygon_rect_iff hw hh p

/-- Witness for C9 (amended): the shared corner `(10, 0)` of the two flush
rectangles of the counterexample lies in the half-open inside of the right
rectangle. -/
theorem claim_C9_amended_witness :
    pointInPolygon ⟨10, 0⟩ (getShapePoints (fun _ => (1, 0)) (.rectangle "b" 10 0 10 10))
      = true :=
  (claim_C9_amended.1 (fun _ => (1, 0)) "b" 10 0 10 10 ⟨10, 0⟩ (by norm_num)
    (by norm_num)).mpr ⟨by norm_num, by norm_num, by norm_num, by norm_num⟩

/-- C6: along one run of `optimizeNesting`, the placed-shape counts of the
`bestSoFar` results reported to `onProgress` never decrease: every reported
best places at least as many shapes as every earlier one. -/
theorem claim_C6_monotone_progress (trig : Nat → ℚ × ℚ) (oracle : PackOracle)
    (shapes : List Shape) (spacing : ℚ) (slab : Shape) :
    ((optimizeNesting trig oracle shapes spacing slab).2.map
        (fun p => p.2.shapes.length)).Pairwise (· ≤ ·) := by
  unfold optimizeNesting
  split
  · simp
  · simp only []
    exact (optLoop_trace_mono _ _ _).1

/-- C2 counterexample: on the empty shape list `optimizeNesting` returns
before the search loop, so that run performs 0 iterations, strictly fewer than
the `2 × numberOfStrategies = 14` the claim demands for every input. -/
theorem claim_C2_counterexample :
    (optimizeNesting (fun _ => (1, 0)) (fun _ _ _ _ _ => []) [] 1
        (.slab "s" 0 0 80 60)).2.length = 0 ∧
    (optimizeNesting (fun _ => (1, 0)) (fun _ _ _ _ _ => []) [] 1
        (.slab "s" 0 0 80 60)).2.length < 2 * sortingStrategies.length := by
  constructor
  · rfl
  · rw [show (optimizeNesting (fun _ => (1, 0)) (fun _ _ _ _ _ => []) [] 1
        (.slab "s" 0 0 80 60)).2.length = 0 from rfl]
    simp [sortingStrategies]

/-- C2 (amended): `optimizeNesting` is deterministic — as a pure function of
the shape list, spacing, slab and the (deterministic) packing library it
yields identical results on identical inputs — and on every NONEMPTY input it
performs exactly `2 × numberOfStrategies` iterations with
`numberOfStrategies = 7`, reporting progress after each, with no early
termination; the empty input instead returns before the loop with zero
iterations. -/
theorem claim_C2_amended (trig : Nat → ℚ × ℚ) (oracle : PackOracle) (shapes : List Shape)
    (spacing : ℚ) (slab : Shape) (h : shapes ≠ []) :
    (optimizeNesting trig oracle shapes spacing slab).2.length = 2 * sortingStrategies.length ∧
    sortingStrategies.length = 7 ∧
    optimizeNesting trig oracle shapes spacing slab
      = optimizeNesting trig oracle shapes spacing slab := by
  refine ⟨?_, rfl, rfl⟩
  unfold optimizeNesting
  rw [if_neg h]
  simp only []
  rw [optLoop_trace_length]
  rfl

/-- Witness for C2 (amended) at a concrete one-rectangle input: the run
reports exactly 14 progress calls. -/
theorem claim_C2_amended_witness :
    (optimizeNesting (fun _ => (1, 0)) (fun _ _ _ _ _ => []) [.rectangle "a" 0 0 10 10] 1
        (.slab "s" 0 0 80 60)).2.length = 2 * sortingStrategies.length :=
  (claim_C2_amended (fun _ => (1, 0)) (fun _ _ _ _ _ => []) [.rectangle "a" 0 0 10 10] 1
    (.slab "s" 0 0 80 60) (by simp)).1

/-- C3: the row/shelf `arrangeShapes` is deterministic, processes the shapes
in input order (each output is the corresponding input moved to the cursor),
and on the spec's example — slab 80×60, rectangles 10×10 and 20×10, spacing
1 — places them left-to-right at `(1, 1)` and `(12, 1)`. -/
theorem claim_C3_row_packer :
    (∀ (shapes : List Shape) (spacing : ℚ) (slab : Shape),
        List.Forall₂ (fun s t => ∃ a b, t = Shape.setPos s a b) shapes
          (arrangeShapesRow shapes spacing slab)) ∧
    arrangeShapesRow [Shape.rectangle "r1" 0 0 10 10, Shape.rectangle "r2" 0 0 20 10] 1
        (Shape.slab "s" 0 0 80 60)
      = [Shape.rectangle "r1" 1 1 10 10, Shape.rectangle "r2" 12 1 20 10] := by
  refine ⟨arrangeShapesRow_forall2, ?_⟩
  with_unfolding_all decide

/-- Moving (or rotate-moving) a shape that turns out to be a circle means the
source shape was that circle with the same id and radius. -/
lemma provenance_circle {s t : Shape} {x y : ℚ}
    (hxy : t = s.setPos x y ∨ t = rotateShape s x y)
    {ci : String} {cx cy r : ℚ} (ht : t = Shape.circle ci cx cy r) :
    ∃ x0 y0, s = Shape.circle ci x0 y0 r := by
  subst ht
  cases s <;> rcases hxy with h1 | h1 <;>
    simp only [Shape.setPos, rotateShape] at h1 <;>
    simp_all [Shape.setPos]

/-- Moving (or rotate-moving) a shape that turns out to be an L-shape means
the source shape was that L-shape with identical corner, id and all four
dimension fields. -/
lemma provenance_lshape {s t : Shape} {x y : ℚ}
    (hxy : t = s.setPos x y ∨ t = rotateShape s x y)
    {c : Corner} {ci : String} {cx cy w h lw lh : ℚ}
    (ht : t = Shape.lshape c ci cx cy w h lw lh) :
    ∃ x0 y0, s = Shape.lshape c ci x0 y0 w h lw lh := by
  subst ht
  cases s <;> rcases hxy with h1 | h1 <;>
    simp only [Shape.setPos, rotateShape] at h1 <;>
    simp_all [Shape.setPos]

/-- The final result of `optimizeNesting` is either the empty initial result
or an arrangement that passed `isValidArrangement` at the search's
`minSpacing = max(spacing, 0.5)`. -/
lemma optimizeNesting_valid (trig : Nat → ℚ × ℚ) (oracle : PackOracle) (shapes : List Shape)
    (spacing : ℚ) (slab : Shape) :
    (optimizeNesting trig oracle shapes spacing slab).1.shapes = [] ∨
      isValidArrangement trig (optimizeNesting trig oracle shapes spacing slab).1.shapes slab
        (max spacing (1 / 2)) = true := by
  unfold optimizeNesting
  split
  · left
    rfl
  · simp only []
    exact (optLoop_inv
      (fun best => best.shapes = [] ∨
        isValidArrangement trig best.shapes slab (max spacing (1 / 2)) = true)
      (fun cmp rot it best hb => optStep_valid hb) _ 0 _ (Or.inl rfl)).1

/-- Every placed shape returned by `optimizeNesting` is a moved or
rotate-moved copy of an input shape. -/
lemma optimizeNesting_provenance (trig : Nat → ℚ × ℚ) (oracle : PackOracle)
    (shapes : List Shape) (spacing : ℚ) (slab : Shape) :
    ∀ t ∈ (optimizeNesting trig oracle shapes spacing slab).1.shapes,
      ∃ s ∈ shapes, ∃ x y, t = s.setPos x y ∨ t = rotateShape s x y := by
  unfold optimizeNesting
  split
  · intro t ht
    simp at ht
  · simp only []
    exact (optLoop_inv
      (fun best => ∀ t ∈ best.shapes,
        ∃ s ∈ shapes, ∃ x y, t = s.setPos x y ∨ t = rotateShape s x y)
      (fun cmp rot it best hb => optStep_provenance hb) _ 0 _ (by intro t ht; simp at ht)).1

/-- Every placed shape returned by `arrangeShapes` is a moved or rotate-moved
copy of an input shape. -/
lemma arrangeShapes_provenance (oracle : PackOracle) (shapes : List Shape) (spacing : ℚ)
    (slab : Shape) :
    ∀ t ∈ arrangeShapes oracle shapes spacing slab,
      ∃ s ∈ shapes, ∃ x y, t = s.setPos x y ∨ t = rotateShape s x y := by
  unfold arrangeShapes
  split
  case isTrue h =>
    intro t ht
    rw [h] at ht
    simp at ht
  case isFalse h =>
    intro t ht
    simp only [] at ht
    rcases reconstruct_mem ht with ⟨s, hs, x, y, hxy⟩
    exact ⟨s, jsSort_mem hs, x, y, hxy⟩

/-- C1: any arrangement accepted by `isValidArrangement` (the validity notion
used for outputs of arrange and optimize) has no colliding pair of distinct
shapes at buffer `spacing / 2` and keeps every bounding box inside
`[1, slabWidth - 1] × [1, slabHeight - 1]`; moreover the result of
`optimizeNesting` itself always satisfies both invariants, for every packing
oracle. -/
theorem claim_C1_no_overlap_in_bounds (trig : Nat → ℚ × ℚ) (oracle : PackOracle)
    (shapes : List Shape) (spacing : ℚ) (i : String) (sx sy sw sh : ℚ) :
    (∀ out : List Shape,
        isValidArrangement trig out (.slab i sx sy sw sh) spacing = true →
        (∀ a b : Fin out.length, a ≠ b →
            shapesCollide trig (out.get a) (out.get b) (spacing / 2) = false) ∧
          ∀ s ∈ out,
            1 ≤ (getShapeBoundingBox s).minX ∧ 1 ≤ (getShapeBoundingBox s).minY ∧
              (getShapeBoundingBox s).maxX ≤ sw - 1 ∧ (getShapeBoundingBox s).maxY ≤ sh - 1) ∧
    (∀ a b : Fin (optimizeNesting trig oracle shapes spacing
          (.slab i sx sy sw sh)).1.shapes.length, a ≠ b →
        shapesCollide trig
            ((optimizeNesting trig oracle shapes spacing (.slab i sx sy sw sh)).1.shapes.get a)
            ((optimizeNesting trig oracle shapes spacing (.slab i sx sy sw sh)).1.shapes.get b)
            (spacing / 2) = false) ∧
    (∀ s ∈ (optimizeNesting trig oracle shapes spacing (.slab i sx sy sw sh)).1.shapes,
        1 ≤ (getShapeBoundingBox s).minX ∧ 1 ≤ (getShapeBoundingBox s).minY ∧
          (getShapeBoundingBox s).maxX ≤ sw - 1 ∧ (getShapeBoundingBox s).maxY ≤ sh - 1) := by
  refine ⟨?_, ?_, ?_⟩
  · intro out hv
    constructor
    · intro a b hab
      exact isValidArrangement_no_collide (le_refl _) hv a b hab
    · intro s hs
      have h1 := (isValidArrangement_iff.mp hv).1 s hs
      simpa [slabWidthOf, slabHeightOf] using shapeWithinBounds_iff.mp h1
  · intro a b hab
    rcases optimizeNesting_valid trig oracle shapes spacing (.slab i sx sy sw sh)
      with hemp | hv
    · exfalso
      have hlen : (optimizeNesting trig oracle shapes spacing
          (.slab i sx sy sw sh)).1.shapes.length = 0 := by rw [hemp]; rfl
      apply Nat.not_lt_zero a.val
      rw [← hlen]
      exact a.2
    · have hb2 : spacing / 2 ≤ max spacing (1 / 2) / 2 := by
        have := le_max_left spacing (1 / 2 : ℚ)
        linarith
      exact isValidArrangement_no_collide hb2 hv a b hab
  · intro s hs
    rcases optimizeNesting_valid trig oracle shapes spacing (.slab i sx sy sw sh)
      with hemp | hv
    · rw [hemp] at hs
      simp at hs
    · have h1 := (isValidArrangement_iff.mp hv).1 s hs
      simpa [slabWidthOf, slabHeightOf] using shapeWithinBounds_iff.mp h1

/-- Witness for C1: a concrete valid two-rectangle arrangement is
collision-free at `spacing / 2`, and a concrete optimizer run (oracle placing
the two rectangles one above the other) yields placed shapes that are pairwise
collision-free and in bounds. -/
theorem claim_C1_witness :
    shapesCollide (fun _ => (1, 0)) (Shape.rectangle "a" 1 1 4 4)
        (Shape.rectangle "b" 10 1 4 4) (1 / 2) = false ∧
    shapesCollide (fun _ => (1, 0)) (Shape.rectangle "b" 1 1 20 10)
        (Shape.rectangle "a" 1 22 10 10) (1 / 2) = false ∧
    1 ≤ (getShapeBoundingBox (Shape.rectangle "b" 1 1 20 10)).minX := by
  have hv : isValidArrangement (fun _ => (1, 0))
      [Shape.rectangle "a" 1 1 4 4, Shape.rectangle "b" 10 1 4 4]
      (.slab "s" 0 0 80 60) 1 = true := by with_unfolding_all decide
  refine ⟨?_, ?_, ?_⟩
  · exact ((claim_C1_no_overlap_in_bounds (fun _ => (1, 0)) (fun _ _ _ _ _ => []) [] 1
      "s" 0 0 80 60).1 [Shape.rectangle "a" 1 1 4 4, Shape.rectangle "b" 10 1 4 4] hv).1
      ⟨0, by norm_num⟩ ⟨1, by norm_num⟩ (by decide)
  · have hlen0 : 0 < (optimizeNesting (fun _ => (1, 0))
        (fun _ _ _ _ _ => [⟨0, 0, 0, false⟩, ⟨1, 0, 21, false⟩])
        [Shape.rectangle "a" 0 0 10 10, Shape.rectangle "b" 0 0 20 10] 1
        (.slab "s" 0 0 80 60)).1.shapes.length := by with_unfolding_all decide
    have hlen1 : 1 < (optimizeNesting (fun _ => (1, 0))
        (fun _ _ _ _ _ => [⟨0, 0, 0, false⟩, ⟨1, 0, 21, false⟩])
        [Shape.rectangle "a" 0 0 10 10, Shape.rectangle "b" 0 0 20 10] 1
        (.slab "s" 0 0 80 60)).1.shapes.length := by with_unfolding_all decide
    have happ := (claim_C1_no_overlap_in_bounds (fun _ => (1, 0))
      (fun _ _ _ _ _ => [⟨0, 0, 0, false⟩, ⟨1, 0, 21, false⟩])
      [Shape.rectangle "a" 0 0 10 10, Shape.rectangle "b" 0 0 20 10] 1 "s" 0 0 80 60).2.1
      ⟨0, hlen0⟩ ⟨1, hlen1⟩ (Fin.ne_of_val_ne (show (0 : ℕ) ≠ 1 by decide))
    have hq0 : (optimizeNesting (fun _ => (1, 0))
        (fun _ _ _ _ _ => [⟨0, 0, 0, false⟩, ⟨1, 0, 21, false⟩])
        [Shape.rectangle "a" 0 0 10 10, Shape.rectangle "b" 0 0 20 10] 1
        (.slab "s" 0 0 80 60)).1.shapes.get? 0
        = some (Shape.rectangle "b" 1 1 20 10) := by with_unfolding_all decide
    have hq1 : (optimizeNesting (fun _ => (1, 0))
        (fun _ _ _ _ _ => [⟨0, 0, 0, false⟩, ⟨1, 0, 21, false⟩])
        [Shape.rectangle "a" 0 0 10 10, Shape.rectangle "b" 0 0 20 10] 1
        (.slab "s" 0 0 80 60)).1.shapes.get? 1
        = some (Shape.rectangle "a" 1 22 10 10) := by with_unfolding_all decide
    rw [get_eq_of_get? hlen0 hq0, get_eq_of_get? hlen1 hq1] at happ
    exact happ
  · exact ((claim_C1_no_overlap_in_bounds (fun _ => (1, 0))
      (fun _ _ _ _ _ => [⟨0, 0, 0, false⟩, ⟨1, 0, 21, false⟩])
      [Shape.rectangle "a" 0 0 10 10, Shape.rectangle "b" 0 0 20 10] 1 "s" 0 0 80 60).2.2
      (Shape.rectangle "b" 1 1 20 10) (by with_unfolding_all decide)).1

/-- C4: every circle or L-shape in the output of `optimizeNesting` or
`arrangeShapes` keeps the dimension fields (radius, or
width/height/legWidth/legHeight and corner variant) of the input shape with
its id — rotation reconstruction only ever swaps dimensions of rectangles and
triangles. -/
theorem claim_C4_rotation_soundness (trig : Nat → ℚ × ℚ) (oracle : PackOracle)
    (shapes : List Shape) (spacing : ℚ) (slab : Shape) :
    (∀ t ∈ (optimizeNesting trig oracle shapes spacing slab).1.shapes,
        (∀ ci cx cy r, t = Shape.circle ci cx cy r →
            ∃ x0 y0, Shape.circle ci x0 y0 r ∈ shapes) ∧
        (∀ c ci cx cy w h lw lh, t = Shape.lshape c ci cx cy w h lw lh →
            ∃ x0 y0, Shape.lshape c ci x0 y0 w h lw lh ∈ shapes)) ∧
    (∀ t ∈ arrangeShapes oracle shapes spacing slab,
        (∀ ci cx cy r, t = Shape.circle ci cx cy r →
            ∃ x0 y0, Shape.circle ci x0 y0 r ∈ shapes) ∧
        (∀ c ci cx cy w h lw lh, t = Shape.lshape c ci cx cy w h lw lh →
            ∃ x0 y0, Shape.lshape c ci x0 y0 w h lw lh ∈ shapes)) := by
  constructor
  · intro t ht
    rcases optimizeNesting_provenance trig oracle shapes spacing slab t ht
      with ⟨s, hs, x, y, hxy⟩
    constructor
    · intro ci cx cy r hteq
      rcases provenance_circle hxy hteq with ⟨x0, y0, hseq⟩
      exact ⟨x0, y0, hseq ▸ hs⟩
    · intro c ci cx cy w h lw lh hteq
      rcases provenance_lshape hxy hteq with ⟨x0, y0, hseq⟩
      exact ⟨x0, y0, hseq ▸ hs⟩
  · intro t ht
    rcases arrangeShapes_provenance oracle shapes spacing slab t ht with ⟨s, hs, x, y, hxy⟩
    constructor
    · intro ci cx cy r hteq
      rcases provenance_circle hxy hteq with ⟨x0, y0, hseq⟩
      exact ⟨x0, y0, hseq ▸ hs⟩
    · intro c ci cx cy w h lw lh hteq
      rcases provenance_lshape hxy hteq with ⟨x0, y0, hseq⟩
      exact ⟨x0, y0, hseq ▸ hs⟩

/-- Witness for C4: a circle pushed through a full optimizer run with an
oracle that reports it as rotated comes out moved but with its radius
untouched, and the claim recovers the input circle. -/
theorem claim_C4_witness :
    Shape.circle "c" 3 4 5 ∈
      (optimizeNesting (fun _ => (1, 0)) (fun _ _ _ _ _ => [⟨0, 2, 3, true⟩])
          [Shape.circle "c" 0 0 5] 1 (.slab "s" 0 0 80 60)).1.shapes ∧
    ∃ x0 y0, Shape.circle "c" x0 y0 5 ∈ [Shape.circle "c" 0 0 5] := by
  have hmem : Shape.circle "c" 3 4 5 ∈
      (optimizeNesting (fun _ => (1, 0)) (fun _ _ _ _ _ => [⟨0, 2, 3, true⟩])
          [Shape.circle "c" 0 0 5] 1 (.slab "s" 0 0 80 60)).1.shapes := by
    with_unfolding_all decide
  exact ⟨hmem, ((claim_C4_rotation_soundness (fun _ => (1, 0))
    (fun _ _ _ _ _ => [⟨0, 2, 3, true⟩]) [Shape.circle "c" 0 0 5] 1
    (.slab "s" 0 0 80 60)).1 _ hmem).1 "c" 3 4 5 rfl⟩

/-- Classification of any non-slab-layer 7-vertex polyline once a slab has
already been found: a rectangle entity with the rounded bounding-box data of
the mm→cm-converted vertices. -/
lemma importPolyline_seven {vs : List Point} {layer : String} (hlen : vs.length = 7)
    (h1 : layer ≠ "Slab") (h2 : layer ≠ "SLAB") :
    importPolyline vs layer true =
      .rectangleEntity
        ((jsRound ((listMax (vs.map fun v => v.x / 10) - listMin (vs.map fun v => v.x / 10))
            * 10) : ℚ) / 10)
        ((jsRound ((listMax (vs.map fun v => v.y / 10) - listMin (vs.map fun v => v.y / 10))
            * 10) : ℚ) / 10)
        ((jsRound (listMin (vs.map fun v => v.x / 10) * 10) : ℚ) / 10)
        ((jsRound (listMin (vs.map fun v => v.y / 10) * 10) : ℚ) / 10) := by
  unfold importPolyline
  have hx : (Point.x ∘ fun v : Point => Point.mk (v.x / 10) (v.y / 10))
      = fun v : Point => v.x / 10 := rfl
  have hy : (Point.y ∘ fun v : Point => Point.mk (v.x / 10) (v.y / 10))
      = fun v : Point => v.y / 10 := rfl
  simp [hlen, h1, h2, List.map_map, hx, hy]

/-- The bounding box of an exported L-shape polyline, in cm after the mm→cm
conversion: exactly the L-shape's outer box, for each corner variant, given
the leg invariants. -/
lemma exportLShape_bbox (c : Corner) (x y w h lw lh xOff yOff : ℚ)
    (hlw0 : 0 ≤ lw) (hlww : lw ≤ w) (hlh0 : 0 ≤ lh) (hlhh : lh ≤ h) :
    listMin ((exportLShapeVertices c x y w h lw lh xOff yOff).map fun v => v.x / 10)
        = (x * 10 + xOff) / 10 ∧
    listMax ((exportLShapeVertices c x y w h lw lh xOff yOff).map fun v => v.x / 10)
        = (x * 10 + xOff + w * 10) / 10 ∧
    listMin ((exportLShapeVertices c x y w h lw lh xOff yOff).map fun v => v.y / 10)
        = (y * 10 + yOff) / 10 ∧
    listMax ((exportLShapeVertices c x y w h lw lh xOff yOff).map fun v => v.y / 10)
        = (y * 10 + yOff + h * 10) / 10 := by
  rcases c <;>
    refine ⟨listMin_eq ?_ ?_, listMax_eq ?_ ?_, listMin_eq ?_ ?_, listMax_eq ?_ ?_⟩ <;>
    first
      | (intro b hb
         simp [exportLShapeVertices] at hb
         rcases hb with rfl | rfl | rfl | rfl | rfl | rfl | rfl <;> linarith)
      | simp [exportLShapeVertices]

/-- C10: the DXF importer classifies every 7-vertex closed polyline that does
not become the slab (non-slab layer, slab already present) as a RECTANGLE
whose width/height come from the polyline's bounding box; hence an L-shape
written by the exporter (7 vertices) and re-imported comes back as a rectangle
with the L-shape's outer width and height, not as an L-shape. -/
theorem claim_C10_lshape_reimport :
    (∀ (vs : List Point) (layer : String), vs.length = 7 → layer ≠ "Slab" → layer ≠ "SLAB" →
        ∃ w h rx ry, importPolyline vs layer true = .rectangleEntity w h rx ry) ∧
    (∀ (c : Corner) (x y w h lw lh xOff yOff : ℚ),
        0 ≤ lw → lw ≤ w → 0 ≤ lh → lh ≤ h →
        (∃ nw : ℤ, (nw : ℚ) = 10 * w) → (∃ nh : ℤ, (nh : ℚ) = 10 * h) →
        (exportLShapeVertices c x y w h lw lh xOff yOff).length = 7 ∧
        ∃ rx ry, importPolyline (exportLShapeVertices c x y w h lw lh xOff yOff)
            "MarbleShapes" true = ImportedEntity.rectangleEntity w h rx ry) := by
  constructor
  · intro vs layer hlen h1 h2
    exact ⟨_, _, _, _, importPolyline_seven hlen h1 h2⟩
  · intro c x y w h lw lh xOff yOff hlw0 hlww hlh0 hlhh hwint hhint
    have hlen : (exportLShapeVertices c x y w h lw lh xOff yOff).length = 7 := by
      rcases c <;> rfl
    refine ⟨hlen, ?_⟩
    rw [importPolyline_seven hlen (by decide) (by decide)]
    rcases exportLShape_bbox c x y w h lw lh xOff yOff hlw0 hlww hlh0 hlhh
      with ⟨hminx, hmaxx, hminy, hmaxy⟩
    rw [hminx, hmaxx, hminy, hmaxy]
    obtain ⟨nw, hnw⟩ := hwint
    obtain ⟨nh, hnh⟩ := hhint
    have hW : ((x * 10 + xOff + w * 10) / 10 - (x * 10 + xOff) / 10) = w := by ring
    have hH : ((y * 10 + yOff + h * 10) / 10 - (y * 10 + yOff) / 10) = h := by ring
    rw [hW, hH]
    have hjw : jsRound (w * 10) = nw := by rw [mul_comm, ← hnw, jsRound_intCast]
    have hjh : jsRound (h * 10) = nh := by rw [mul_comm, ← hnh, jsRound_intCast]
    rw [hjw, hjh]
    have hnw10 : ((nw : ℚ)) / 10 = w := by rw [hnw]; ring
    have hnh10 : ((nh : ℚ)) / 10 = h := by rw [hnh]; ring
    rw [hnw10, hnh10]
    exact ⟨_, _, rfl⟩

/-- Witness for C10: a concrete top-left L-shape (outer 10×8, legs 4×3,
exported at offset 820 mm) exports as 7 vertices and re-imports as a 10×8
rectangle. -/
theorem claim_C10_witness :
    (exportLShapeVertices .tl 2 3 10 8 4 3 820 0).length = 7 ∧
    ∃ rx ry, importPolyline (exportLShapeVertices .tl 2 3 10 8 4 3 820 0) "MarbleShapes" true
      = ImportedEntity.rectangleEntity 10 8 rx ry :=
  claim_C10_lshape_reimport.2 .tl 2 3 10 8 4 3 820 0 (by norm_num) (by norm_num)
    (by norm_num) (by norm_num) ⟨100, by norm_num⟩ ⟨80, by norm_num⟩
